import Mathlib

/-
Verification of the reference-counted runtime-directory lifecycle of
pam_rundir (src/pam_rundir.c), as a shallow embedding in Lean 4.

Pure helpers of the C file (intlen, print_int, print_filename, read_counter,
write_counter, emergency_invalidate_counter, rmrf, ensure_parent_dir,
open_and_lock) become Lean functions over explicit file/filesystem states.
System-call outcomes that depend on the outside world (write(2) accepting a
partial buffer, flock contention, allocation failure, ...) are supplied by
explicit oracle records, so every execution path of the C code corresponds
to a choice of oracle.  Machine int arithmetic is modelled with Nat/Int; the
counter values exercised here stay far below 2^31, where C int arithmetic
and the model agree.
-/

namespace PamRundir

/-! ## Constants (config.h defaults and pam_rundir.c macros) -/

def MAX_UID_LENGTH : Nat := 10
def COUNTER_BUFFER_SIZE : Nat := 20
def MAX_PATH_LEN : Nat := 4096
def LOCK_RETRIES : Nat := 5
/-- Delay between lock retries in microseconds (100 ms). -/
def LOCK_RETRY_DELAY : Nat := 100000

def S_IRWXU : Nat := 0o700
def S_IRWXG : Nat := 0o070
def S_IRUSR : Nat := 0o400
def S_IWUSR : Nat := 0o200
def S_IRGRP : Nat := 0o040
def S_IWGRP : Nat := 0o020
def S_IXGRP : Nat := 0o010
def S_IROTH : Nat := 0o004
def S_IWOTH : Nat := 0o002
def S_IXOTH : Nat := 0o001

/-! ## Integer formatting helpers (intlen, print_int) -/

/-- Embeds `intlen`: number of decimal digits, by repeated division as in the
C loop. -/
def intlen (n : Nat) : Nat :=
  if n < 10 then 1 else intlen (n / 10) + 1
termination_by n
decreasing_by
  exact Nat.div_lt_self (by omega) (by omega)

/-- The digit table of `print_int`: `const char digits[] = "0123456789"`. -/
def DIGITS : List Char := ['0', '1', '2', '3', '4', '5', '6', '7', '8', '9']

/-- Embeds `digits[d]` (always used with `d = n % 10 < 10`). -/
def digitChar (d : Nat) : Char := DIGITS.getD d '0'

/-- The sequence of digit characters deposited by the `print_int` loop,
leftmost first: it writes `digits[n % 10]` at the right end, then recurses on
`n / 10` while `n >= 10`. -/
def digitsOf (n : Nat) : List Char :=
  if n < 10 then [digitChar (n % 10)]
  else digitsOf (n / 10) ++ [digitChar (n % 10)]
termination_by n
decreasing_by
  exact Nat.div_lt_self (by omega) (by omega)

/-- Embeds `print_int s n l`: a buffer of length `l` filled from the right
with the digits of `n`; bytes the loop never reaches keep their indeterminate
content (shown as a placeholder character).  All call sites use
`l = intlen n`, where the placeholder prefix is empty. -/
def print_int (n l : Nat) : List Char :=
  List.replicate (l - (digitsOf n).length) '?' ++ digitsOf n

/-! ## read_counter -/

/-- Byte is an ASCII digit (the C test `buf[p] >= '0' && buf[p] <= '9'`,
negated in source). -/
def isDigitByte (c : Char) : Bool := decide ('0' ≤ c) && decide (c ≤ '9')

/-- Embeds `buf[p] - '0'`. -/
def digitVal (c : Char) : Nat := c.toNat - '0'.toNat

/-- The inner per-chunk loop of `read_counter`: accumulates
`count * 10 + (byte - '0')`, failing at the first non-digit byte. -/
def scanDigits : Nat → List Char → Option Nat
  | count, [] => some count
  | count, c :: rest =>
      if isDigitByte c then scanDigits (count * 10 + digitVal c) rest else none

/-- The outer loop of `read_counter`: `read(fd, buf, 4)` returns the next
at-most-4 remaining bytes of the file.  Result `-2` is the sentinel case
(`count == 0 && r == 1 && buf[0] == '-'`), `-1` is corrupt content. -/
def read_counter_aux (count : Nat) (rest : List Char) : Int :=
  if h : rest.isEmpty then Int.ofNat count
  else if count = 0 ∧ rest.length = 1 ∧ rest.head? = some '-' then -2
  else
    match scanDigits count (rest.take 4) with
    | none => -1
    | some c => read_counter_aux c (rest.drop 4)
termination_by rest.length
decreasing_by
  have hne : rest ≠ [] := by
    intro hcon
    exact h (by simp [hcon])
  have : 0 < rest.length := List.length_pos.mpr hne
  simp only [List.length_drop]
  omega

/-- Embeds `read_counter`, reading the whole file content from offset 0. -/
def read_counter (content : List Char) : Int := read_counter_aux 0 content

/-- Exactly the contents on which `read_counter` reports the sentinel:
groups of four '0' bytes (each consumed by one 4-byte `read` with the
accumulator still 0) followed by a lone '-' byte arriving in a 1-byte read. -/
def zeros_sentinel : List Char → Bool
  | [] => false
  | [c] => decide (c = '-')
  | a :: b :: c :: d :: rest =>
      decide (a = '0') && decide (b = '0') && decide (c = '0') &&
        decide (d = '0') && zeros_sentinel rest
  | _ => false

/-- Decimal accumulation over a byte list (the value `read_counter` computes
on all-digit content). -/
def foldDigits (count : Nat) (cs : List Char) : Nat :=
  cs.foldl (fun c ch => c * 10 + digitVal ch) count

/-- Closed-form value of `read_counter_aux count rest` (proved equal below):
sentinel-shaped content with a zero accumulator gives -2, all-digit content
gives the accumulated decimal value, anything else gives -1. -/
def read_aux_val (count : Nat) (rest : List Char) : Int :=
  if count = 0 ∧ zeros_sentinel rest = true then -2
  else if rest.all isDigitByte then Int.ofNat (foldDigits count rest)
  else -1

/-! ## write_counter and emergency_invalidate_counter -/

/-- State of the open counter file descriptor: byte content and file
offset. -/
structure WFile where
  content : List Char
  pos : Nat
deriving DecidableEq, Repr

/-- Outcome of one `write(2)` call: accepts `k` bytes, is interrupted, or
fails with a non-EINTR error. -/
inductive WriteStep where
  | ok (k : Nat)
  | eintr
  | err
deriving DecidableEq, Repr

/-- Oracle for the system calls made by `write_counter` and its emergency
fallback. `writes` lists the outcomes of successive `write(2)` calls in the
main loop; an exhausted list means the call accepts everything requested. -/
structure WOracle where
  lseekOk : Bool
  writes : List WriteStep
  ftruncOk : Bool
  emergLseekOk : Bool
  emergWriteOk : Bool
  emergFtruncOk : Bool
deriving Repr

/-- All system calls succeed and every write is complete. -/
def wAllOk : WOracle := ⟨true, [], true, true, true, true⟩

/-- Overwrite `data.length` bytes of the file at the current offset,
advancing the offset (POSIX write semantics on a regular file; a hole past
EOF reads back as NUL bytes). -/
def writeBytes (f : WFile) (data : List Char) : WFile :=
  { content :=
      f.content.take f.pos
        ++ List.replicate (f.pos - f.content.length) (Char.ofNat 0)
        ++ data
        ++ f.content.drop (f.pos + data.length)
    pos := f.pos + data.length }

/-- `ftruncate` to length `l` (padding with NUL when growing). -/
def ftruncModel (c : List Char) (l : Nat) : List Char :=
  c.take l ++ List.replicate (l - c.length) (Char.ofNat 0)

/-- Embeds `emergency_invalidate_counter`: seek to 0, write the sentinel
byte, truncate to length 1; gives up silently at the first failure. -/
def emergency_invalidate_counter (f : WFile) (o : WOracle) : WFile :=
  if ¬ o.emergLseekOk then f
  else
    let f1 : WFile := { f with pos := 0 }
    if ¬ o.emergWriteOk then f1
    else
      let f2 := writeBytes f1 ['-']
      if ¬ o.emergFtruncOk then f2
      else { f2 with content := ftruncModel f2.content 1 }

/-- Result of the write loop in `write_counter`: either the loop broke out
with `w == l`, or a write failed hard. -/
inductive WLoopRes where
  | broke (f : WFile)
  | failed (f : WFile)
deriving Repr

/-- The write loop of `write_counter`.  Mirrors the C source faithfully,
including its slip: `int w = 0;` is declared INSIDE the `for (;;)` body, so
the count of already-written bytes resets to 0 on every iteration.  After a
partial write the loop therefore rewrites the whole buffer at the advanced
file offset, and on a hard error the guard `if (w > 0)` can never fire. -/
def write_loop (buf : List Char) (l : Nat) (o : WOracle) :
    WFile → List WriteStep → WLoopRes
  | f, [] =>
      -- oracle exhausted: the write accepts all `l - w` requested bytes
      let w : Nat := 0
      .broke (writeBytes f ((buf.drop w).take (l - w)))
  | f, .eintr :: rest => write_loop buf l o f rest
  | f, .err :: _ =>
      let w : Nat := 0
      if w > 0 then .failed (emergency_invalidate_counter f o)
      else .failed f
  | f, .ok k :: rest =>
      let w : Nat := 0
      let k' := min k (l - w)
      let f' := writeBytes f ((buf.drop w).take k')
      if w + k' = l then .broke f' else write_loop buf l o f' rest

/-- Embeds `write_counter fd count`: seek to 0, format `count` (or the
sentinel byte for a negative count), write it, truncate to the written
length; a failed truncate triggers the emergency invalidation. -/
def write_counter (f : WFile) (count : Int) (o : WOracle) : Int × WFile :=
  if ¬ o.lseekOk then (-1, f)
  else
    let f0 : WFile := { f with pos := 0 }
    let l : Nat := if 0 ≤ count then intlen count.toNat else 1
    let buf : List Char := if 0 ≤ count then print_int count.toNat l else ['-']
    match write_loop buf l o f0 o.writes with
    | .failed f1 => (-1, f1)
    | .broke f1 =>
        if o.ftruncOk then (0, { f1 with content := ftruncModel f1.content l })
        else (-1, emergency_invalidate_counter f1 o)

/-! ## Path construction (print_filename and the memmove derivation) -/

/-- `PARENT_DIR` (config default `/run/user`), without the terminating NUL;
the C `sizeof (PARENT_DIR)` is `PARENT_DIR.length + 1`. -/
def PARENT_DIR : List Char := "/run/user".toList

def NUL : Char := Char.ofNat 0

/-- Embeds `print_filename`: the NUL-terminated buffer
`PARENT_DIR ++ "/" ++ "." ++ digits ++ NUL`, e.g. "/run/user/.1000". -/
def print_filename (uid l : Nat) : List Char :=
  PARENT_DIR ++ ['/'] ++ ['.'] ++ print_int uid l ++ [NUL]

/-- `memmove(b + dst, b + src, n)` on a byte buffer. -/
def memmove_model (b : List Char) (dst src n : Nat) : List Char :=
  b.take dst ++ (b.drop src).take n ++ b.drop (dst + n)

/-- A buffer read as a C string: bytes up to the first NUL. -/
def cstring (b : List Char) : List Char := b.takeWhile (fun c => c ≠ NUL)

/-- The runtime-directory path both hooks derive from the counter path with
`memmove(file + sizeof(PARENT_DIR) - 1, file + sizeof(PARENT_DIR), l + 1)`.
(Note the source offsets are one short of dropping the dot: the copied block
starts AT the dot, so for uid 1000 this yields "/run/user.10000", not
"/run/user/1000"; both hooks use the same derivation, so they agree on the
path.) -/
def rundir_buf (uid : Nat) : List Char :=
  memmove_model (print_filename uid (intlen uid))
    PARENT_DIR.length (PARENT_DIR.length + 1) (intlen uid + 1)

def rundir_path (uid : Nat) : List Char := cstring (rundir_buf uid)

/-! ## rmrf -/

/-- A filesystem object: a plain file or a directory with named entries. -/
inductive FsNode where
  | file : FsNode
  | dir : List (List Char × FsNode) → FsNode

/-
Embeds `rmrf` (and its readdir loop, as `rmrfEntries`).  The model keeps
the remaining object alongside the C return value: `unlink` on a file
removes it; on a directory it fails with EISDIR and the entries are
enumerated, recursing into subdirectories and unlinking files, with the
path-length bound checks of the source; `rmdir` then succeeds exactly when
every entry was removed.
-/
mutual

def rmrf (path : List Char) (node : FsNode) : Int × Option FsNode :=
  match node with
  | .file => (0, none)
  | .dir entries =>
      -- unlink failed with EISDIR; opendir succeeded
      if path.length ≥ MAX_PATH_LEN - 1 then (-1, some (.dir entries))
      else
        match rmrfEntries path entries with
        | (r, []) => (r, none)
        | (_, rem) => (-1, some (.dir rem))

def rmrfEntries (path : List Char) (es : List (List Char × FsNode)) :
    Int × List (List Char × FsNode) :=
  match es with
  | [] => (0, [])
  | (nm, child) :: rest =>
      let step : Int × Option FsNode :=
        if path.length + 1 + nm.length ≥ MAX_PATH_LEN then (-1, some child)
        else
          match child with
          | .file => (0, none)
          | .dir sub => rmrf (path ++ ['/'] ++ nm) (.dir sub)
      let tail := rmrfEntries path rest
      (if step.1 < 0 ∨ tail.1 < 0 then -1 else 0,
       match step.2 with
       | none => tail.2
       | some c => (nm, c) :: tail.2)

end

/-- `rmrf` invoked on a path that may not exist: `unlink` on an absent path
fails with ENOENT, which is not EISDIR, so the call logs and returns -1. -/
def rmrfAt (path : List Char) (node : Option FsNode) : Int × Option FsNode :=
  match node with
  | none => (-1, none)
  | some n => rmrf path n

/-! ## ensure_parent_dir -/

/-- State of the parent directory path. -/
structure PDir where
  ex : Bool
  isDir : Bool
  mode : Nat
  owner : Nat × Nat
deriving DecidableEq, Repr

/-- Failure injections for `ensure_parent_dir`: `mkdirFailOther` is a mkdir
failure with an errno other than EEXIST (only possible when the path is
absent; an existing path gives EEXIST). -/
structure EnsureOracle where
  mkdirFailOther : Bool
  statFail : Bool
  chownFail : Bool
  chmodFail : Bool
deriving Repr

def eAllOk : EnsureOracle := ⟨false, false, false, false⟩

/-- `mode & ~mask`, for masks within 0o7777. -/
def applyUmask (mode mask : Nat) : Nat := mode &&& (0o7777 ^^^ mask)

structure EnsureResult where
  ok : Bool
  pdir : PDir
  /-- The mode the directory had at creation, before the later chmod. -/
  createdMode : Option Nat
deriving Repr

/-- Embeds `ensure_parent_dir`: under `umask(S_IWOTH)`, try
`mkdir(PARENT_DIR, S_IRWXU | S_IRWXG | S_IROTH | S_IXOTH)`, tolerate EEXIST
after verifying the path is a directory, then (non-fatally) `chown` root:root
and `chmod` to `S_IRWXU | S_IRGRP | S_IXGRP | S_IROTH | S_IXOTH`. -/
def ensure_parent_dir (p : PDir) (o : EnsureOracle) : EnsureResult :=
  if ¬ p.ex then
    if o.mkdirFailOther then ⟨false, p, none⟩
    else
      let cm := applyUmask (S_IRWXU ||| S_IRWXG ||| S_IROTH ||| S_IXOTH) S_IWOTH
      let p1 : PDir := ⟨true, true, cm, (0, 0)⟩
      let p2 := if o.chownFail then p1 else { p1 with owner := (0, 0) }
      let p3 := if o.chmodFail then p2
        else { p2 with mode := S_IRWXU ||| S_IRGRP ||| S_IXGRP ||| S_IROTH ||| S_IXOTH }
      ⟨true, p3, some cm⟩
  else
    if o.statFail then ⟨false, p, none⟩
    else if ¬ p.isDir then ⟨false, p, none⟩
    else
      let p2 := if o.chownFail then p else { p with owner := (0, 0) }
      let p3 := if o.chmodFail then p2
        else { p2 with mode := S_IRWXU ||| S_IRGRP ||| S_IXGRP ||| S_IROTH ||| S_IXOTH }
      ⟨true, p3, none⟩

/-! ## open_and_lock -/

/-- Outcome of one `flock(fd, LOCK_EX | LOCK_NB)` call. -/
inductive FlockStep where
  | ok
  | wouldBlock
  | eintr
  | err
deriving DecidableEq, Repr

/-- Observable outcome of the lock retry loop: whether the lock was taken,
how many `flock` calls were made, and how many `usleep(LOCK_RETRY_DELAY)`
delays were taken. -/
structure FlockOut where
  locked : Bool
  attempts : Nat
  sleeps : Nat
deriving DecidableEq, Repr

/-- The lock retry loop of `open_and_lock`: at most `LOCK_RETRIES` non-blocking
attempts, sleeping `LOCK_RETRY_DELAY` microseconds after each failed one;
a non-EWOULDBLOCK/EINTR error aborts immediately. -/
def flock_loop (flocks : Nat → FlockStep) (retries attempts sleeps : Nat) :
    FlockOut :=
  if retries < LOCK_RETRIES then
    match flocks retries with
    | .ok => ⟨true, attempts + 1, sleeps⟩
    | .err => ⟨false, attempts + 1, sleeps⟩
    | .wouldBlock => flock_loop flocks (retries + 1) (attempts + 1) (sleeps + 1)
    | .eintr => flock_loop flocks (retries + 1) (attempts + 1) (sleeps + 1)
  else ⟨false, attempts, sleeps⟩
termination_by LOCK_RETRIES - retries
decreasing_by
  all_goals simp_all [LOCK_RETRIES]; omega

def open_and_lock_lock (flocks : Nat → FlockStep) : FlockOut :=
  flock_loop flocks 0 0 0

def flocksOk : Nat → FlockStep := fun _ => FlockStep.ok

/-- `open_and_lock` at the session level: the counter file's parent directory
is checked (non-directory fails), the file is opened with O_CREAT (an absent
file becomes empty content), and the lock loop runs; `none` is the C return
`-1`. -/
def open_and_lock_session (p : PDir) (content : Option (List Char))
    (flocks : Nat → FlockStep) : Option (List Char) :=
  if p.ex ∧ ¬ p.isDir then none
  else
    let c := content.getD []
    if (open_and_lock_lock flocks).locked then some c else none

/-! ## Session model -/

/-- The PAM return values used by the module. -/
inductive PamResult where
  | success      -- PAM_SUCCESS
  | userUnknown  -- PAM_USER_UNKNOWN
  | systemErr    -- PAM_SYSTEM_ERR
  | sessionErr   -- PAM_SESSION_ERR
  | bufErr       -- PAM_BUF_ERR
deriving DecidableEq, Repr

/-- Effective credentials of the invoking process (geteuid/getegid; seteuid
and setegid act on these).  They are per-invocation inputs and outputs: the
host framework owns the process that calls each hook. -/
structure Creds where
  euid : Nat
  egid : Nat
deriving DecidableEq, Repr

/-- The per-user runtime directory object, with ownership and mode. -/
structure RunDir where
  node : FsNode
  owner : Nat × Nat
  mode : Nat

/-- System state the module touches, for one identity: the parent directory,
the content of the counter file at `{parent}/.{uid}` (none = absent), the
object at the derived runtime-directory path (none = absent), the PAM module
data flag (the session token), and whether the env var was published. -/
structure World where
  parent : PDir
  counterFile : Option (List Char)
  runDir : Option RunDir
  token : Bool
  envSet : Bool

/-- Oracle for the system/PAM calls of `pam_sm_open_session`. `userLookup`
is the combined pam_get_user + getpwnam outcome. -/
structure OpenOracle where
  userLookup : Option (Nat × Nat)
  ensure : EnsureOracle
  flocks : Nat → FlockStep
  incrW : WOracle
  mallocOk : Bool
  setDataOk : Bool
  setegidOk : Bool
  seteuidOk : Bool
  mkdirRunDirOk : Bool
  putenvOk : Bool
  chownRunDirOk : Bool
  chmodRunDirOk : Bool
  restoreSeteuidOk : Bool
  restoreSetegidOk : Bool
  revertW : WOracle

/-- Oracle for the system/PAM calls of `pam_sm_close_session`. -/
structure CloseOracle where
  getDataOk : Bool
  userLookup : Option (Nat × Nat)
  ensure : EnsureOracle
  flocks : Nat → FlockStep
  decW : WOracle

/-- Result of `pam_sm_close_session`, with a ghost observation of whether
the removal step (`rmrf`) was invoked. -/
structure CloseOut where
  result : PamResult
  world : World
  removalAttempted : Bool

/-- The `restore_privs` label of `pam_sm_open_session`:
`if (seteuid(0) < 0 || setegid(0) < 0)` logs and continues, so a failed
`seteuid(0)` short-circuits the `setegid(0)`. -/
def restore_privs (cr : Creds) (o : OpenOracle) : Creds :=
  if ¬ o.restoreSeteuidOk then cr
  else
    let cr1 : Creds := { cr with euid := 0 }
    if ¬ o.restoreSetegidOk then cr1 else { cr1 with egid := 0 }

/-- The `revert_counter` label of `pam_sm_open_session`: write back the
pre-increment count (result only logged), then `r = PAM_SESSION_ERR;` —
unconditionally, clobbering any earlier assignment such as PAM_BUF_ERR —
and clear the module data.  The fd is closed at `done`. -/
def revert_counter (cr : Creds) (w : World) (count : Int) (o : OpenOracle) :
    PamResult × World × Creds :=
  let w1 :=
    if 0 ≤ count then
      let fd0 : WFile := ⟨w.counterFile.getD [], 0⟩
      { w with counterFile := some (write_counter fd0 count o.revertW).2.content }
    else w
  (.sessionErr, { w1 with token := false }, cr)

/-- The tail of the open-session success path after the runtime-directory
mkdir: pam_putenv (failure goes to restore_privs → revert_counter), then
non-fatal chown and chmod of the runtime directory, then PAM_SUCCESS. -/
def open_after_mkdir (cr : Creds) (w : World) (count : Int)
    (uid gid : Nat) (o : OpenOracle) : PamResult × World × Creds :=
  if ¬ o.putenvOk then revert_counter (restore_privs cr o) w count o
  else
    let w1 := { w with envSet := true }
    let w2 :=
      if o.chownRunDirOk then
        { w1 with runDir := w1.runDir.map fun rd => { rd with owner := (uid, gid) } }
      else w1
    let w3 :=
      if o.chmodRunDirOk then
        { w2 with runDir := w2.runDir.map fun rd => { rd with mode := S_IRWXU } }
      else w2
    (.success, w3, cr)

/-- Embeds `pam_sm_open_session`.  Control flow mirrors the C source: root
check, user lookup, uid-length check, ensure parent dir, open-and-lock the
counter, read (sentinel normalizes to 0), write count+1, allocate and attach
the session token, drop privileges, mkdir the runtime directory (EEXIST
tolerated), publish the env var, non-fatal chown/chmod — with the `goto
restore_privs` / `goto revert_counter` error ladder of the source. -/
def pam_sm_open_session (cr : Creds) (w : World) (o : OpenOracle) :
    PamResult × World × Creds :=
  if cr.euid ≠ 0 then (.sessionErr, w, cr)
  else
    match o.userLookup with
    | none => (.userUnknown, w, cr)
    | some (uid, gid) =>
        let l := intlen uid
        if l = 0 ∨ l > MAX_UID_LENGTH then (.systemErr, w, cr)
        else
          let er := ensure_parent_dir w.parent o.ensure
          let w1 := { w with parent := er.pdir }
          if ¬ er.ok then (.sessionErr, w1, cr)
          else
            match open_and_lock_session w1.parent w1.counterFile o.flocks with
            | none => (.sessionErr, w1, cr)
            | some content =>
                let w2 := { w1 with counterFile := some content }
                let cnt := read_counter content
                if cnt < 0 ∧ cnt ≠ -2 then (.sessionErr, w2, cr)
                else
                  let count : Int := if cnt = -2 then 0 else cnt
                  let wr := write_counter ⟨content, content.length⟩ (count + 1) o.incrW
                  let w3 := { w2 with counterFile := some wr.2.content }
                  if wr.1 < 0 then (.sessionErr, w3, cr)
                  else if ¬ o.mallocOk then
                    -- r = PAM_BUF_ERR; goto revert_counter (which clobbers r)
                    revert_counter cr w3 count o
                  else if ¬ o.setDataOk then
                    revert_counter cr w3 count o
                  else
                    let w4 := { w3 with token := true }
                    if ¬ o.setegidOk then revert_counter cr w4 count o
                    else
                      let cr1 : Creds := { cr with egid := gid }
                      if ¬ o.seteuidOk then revert_counter cr1 w4 count o
                      else
                        let cr2 : Creds := { cr1 with euid := uid }
                        match w4.runDir with
                        | none =>
                            if ¬ o.mkdirRunDirOk then
                              revert_counter (restore_privs cr2 o) w4 count o
                            else
                              let w5 := { w4 with
                                runDir := some ⟨.dir [], (uid, gid), S_IRWXU⟩ }
                              open_after_mkdir cr2 w5 count uid gid o
                        | some _ =>
                            -- mkdir failed with EEXIST: tolerated
                            open_after_mkdir cr2 w4 count uid gid o

/-- Embeds `pam_sm_close_session`: module-data check (no data → success),
root check, user lookup, uid-length check, ensure parent dir, open-and-lock,
read counter (negative read: sentinel → success, corrupt → error, both
without writing), decrement with floor 0, rmrf the runtime directory when
the result is 0 (failure forces `count = -1`), write the counter (so a
removal failure writes the sentinel), clear the module data. -/
def pam_sm_close_session (cr : Creds) (w : World) (o : CloseOracle) :
    CloseOut :=
  if ¬ o.getDataOk then ⟨.sessionErr, w, false⟩
  else if ¬ w.token then ⟨.success, w, false⟩
  else if cr.euid ≠ 0 then ⟨.sessionErr, w, false⟩
  else
    match o.userLookup with
    | none => ⟨.userUnknown, w, false⟩
    | some (uid, _gid) =>
        let l := intlen uid
        if l = 0 ∨ l > MAX_UID_LENGTH then ⟨.systemErr, w, false⟩
        else
          let er := ensure_parent_dir w.parent o.ensure
          let w1 := { w with parent := er.pdir }
          if ¬ er.ok then ⟨.sessionErr, w1, false⟩
          else
            match open_and_lock_session w1.parent w1.counterFile o.flocks with
            | none => ⟨.sessionErr, w1, false⟩
            | some content =>
                let w2 := { w1 with counterFile := some content }
                let cnt := read_counter content
                if cnt < 0 then
                  ⟨if cnt = -2 then .success else .sessionErr,
                   { w2 with token := false }, false⟩
                else
                  let count : Int := if cnt > 0 then cnt - 1 else cnt
                  if count = 0 then
                    let rr := rmrfAt (rundir_path uid) (w2.runDir.map (·.node))
                    let w3 := { w2 with runDir :=
                      match w2.runDir, rr.2 with
                      | some rd, some n => some { rd with node := n }
                      | _, _ => none }
                    let count2 : Int := if rr.1 < 0 then -1 else count
                    let wc := write_counter ⟨w3.counterFile.getD [], 0⟩ count2 o.decW
                    let w4 := { w3 with counterFile := some wc.2.content,
                                        token := false }
                    if wc.1 < 0 then ⟨.sessionErr, w4, true⟩
                    else if count2 = -1 then ⟨.sessionErr, w4, true⟩
                    else ⟨.success, w4, true⟩
                  else
                    let wc := write_counter ⟨w2.counterFile.getD [], 0⟩ count o.decW
                    let w4 := { w2 with counterFile := some wc.2.content,
                                        token := false }
                    if wc.1 < 0 then ⟨.sessionErr, w4, false⟩
                    else ⟨.success, w4, false⟩

/-! ## Concrete scenarios -/

/-- The parent directory as it normally exists: root-owned 0755 dir. -/
def rootParent : PDir := ⟨true, true, 0o755, (0, 0)⟩

/-- Fresh initial world: parent present, no counter file, no runtime dir. -/
def w0 : World := ⟨rootParent, none, none, false, false⟩

/-- Root credentials, as the framework invokes the hooks. -/
def creds0 : Creds := ⟨0, 0⟩

/-- All-success oracle for session start. -/
def oOpenAllOk (uid gid : Nat) : OpenOracle :=
  ⟨some (uid, gid), eAllOk, flocksOk, wAllOk, true, true, true, true, true,
   true, true, true, true, true, wAllOk⟩

def oOpenMallocFail (uid gid : Nat) : OpenOracle :=
  { oOpenAllOk uid gid with mallocOk := false }

def oOpenMkdirFail (uid gid : Nat) : OpenOracle :=
  { oOpenAllOk uid gid with mkdirRunDirOk := false }

def oOpenPutenvFail (uid gid : Nat) : OpenOracle :=
  { oOpenAllOk uid gid with putenvOk := false }

def oOpenSeteuidFail (uid gid : Nat) : OpenOracle :=
  { oOpenAllOk uid gid with seteuidOk := false }

/-- All-success oracle for session end. -/
def oCloseAllOk (uid gid : Nat) : CloseOracle :=
  ⟨true, some (uid, gid), eAllOk, flocksOk, wAllOk⟩

/-- A world at session end: parent present, given counter content, given
runtime-directory object, session token set. -/
def closeWorld (content : List Char) (rd : Option RunDir) : World :=
  ⟨rootParent, some content, rd, true, false⟩

/-- An existing empty runtime directory owned by the user. -/
def emptyRunDir (uid gid : Nat) : RunDir := ⟨.dir [], (uid, gid), 0o700⟩

/-- Write oracle: the first `write(2)` accepts one byte, the second fails
hard (non-EINTR). -/
def wPartialErr : WOracle := ⟨true, [.ok 1, .err], true, true, true, true⟩

/-- Write oracle: the first `write(2)` accepts one byte, later calls accept
everything. -/
def wPartialOk : WOracle := ⟨true, [.ok 1], true, true, true, true⟩

/-- Write oracle: writes succeed but the truncation fails. -/
def wTruncFail : WOracle := ⟨true, [], false, true, true, true⟩

/-- An absent parent-directory path. -/
def pAbsent : PDir := ⟨false, false, 0, (0, 0)⟩

/-- A path that exists but is not a directory. -/
def pNonDir : PDir := ⟨true, false, 0o644, (0, 0)⟩

/-! ## Basic lemmas about the integer formatting helpers -/

theorem intlen_pos (n : Nat) : 1 ≤ intlen n := by
  rw [intlen]
  split <;> omega

theorem digitsOf_length (n : Nat) : (digitsOf n).length = intlen n := by
  induction n using Nat.strong_induction_on with
  | _ n ih =>
    rw [digitsOf, intlen]
    split
    · simp
    · rename_i h
      have hlt : n / 10 < n := Nat.div_lt_self (by omega) (by omega)
      simp [ih _ hlt]

theorem print_int_intlen (n : Nat) : print_int n (intlen n) = digitsOf n := by
  rw [print_int, digitsOf_length]
  simp

theorem isDigitByte_digitChar {d : Nat} (h : d < 10) :
    isDigitByte (digitChar d) = true := by
  interval_cases d <;> decide

theorem digitVal_digitChar {d : Nat} (h : d < 10) : digitVal (digitChar d) = d := by
  interval_cases d <;> decide

theorem digitChar_ne_nul {d : Nat} (h : d < 10) : digitChar d ≠ NUL := by
  interval_cases d <;> decide

theorem digitsOf_all_digits (n : Nat) : (digitsOf n).all isDigitByte = true := by
  induction n using Nat.strong_induction_on with
  | _ n ih =>
    rw [digitsOf]
    split
    · simp [isDigitByte_digitChar (Nat.mod_lt n (by omega))]
    · rename_i h
      have hlt : n / 10 < n := Nat.div_lt_self (by omega) (by omega)
      simp [ih _ hlt, isDigitByte_digitChar (Nat.mod_lt n (by omega))]

theorem foldDigits_append (a : Nat) (l1 l2 : List Char) :
    foldDigits a (l1 ++ l2) = foldDigits (foldDigits a l1) l2 := by
  simp [foldDigits, List.foldl_append]

theorem foldDigits_digitsOf (n : Nat) : foldDigits 0 (digitsOf n) = n := by
  induction n using Nat.strong_induction_on with
  | _ n ih =>
    rw [digitsOf]
    split
    · rename_i h
      simp [foldDigits, digitVal_digitChar (Nat.mod_lt n (by omega))]
      omega
    · rename_i h
      have hlt : n / 10 < n := Nat.div_lt_self (by omega) (by omega)
      rw [foldDigits_append, ih _ hlt]
      simp [foldDigits, digitVal_digitChar (Nat.mod_lt n (by omega))]
      omega

/-! ## Characterization of read_counter -/

theorem scanDigits_none_iff (a : Nat) (l : List Char) :
    scanDigits a l = none ↔ l.all isDigitByte = false := by
  induction l generalizing a with
  | nil => simp [scanDigits]
  | cons c rest ih =>
    by_cases hc : isDigitByte c = true
    · simp [scanDigits, hc, ih]
    · have hcf : isDigitByte c = false := by simpa using hc
      simp [scanDigits, hcf]

theorem scanDigits_all (a : Nat) (l : List Char) (h : l.all isDigitByte = true) :
    scanDigits a l = some (foldDigits a l) := by
  induction l generalizing a with
  | nil => simp [scanDigits, foldDigits]
  | cons c rest ih =>
    simp only [List.all_cons, Bool.and_eq_true] at h
    simp [scanDigits, h.1, ih _ h.2, foldDigits]

theorem char_eq_zero_of {c : Char} (h1 : isDigitByte c = true)
    (h2 : digitVal c = 0) : c = '0' := by
  have hparts := (Bool.and_eq_true _ _).mp h1
  have hl : '0' ≤ c := of_decide_eq_true hparts.1
  have h48 : '0'.toNat ≤ c.toNat := Char.le_def.mp hl
  have hn : c.toNat = 48 := by
    simp [digitVal] at h2
    have : '0'.toNat = 48 := by decide
    omega
  have := Char.ofNat_toNat c
  rw [hn] at this
  rw [← this]

theorem foldDigits_eq_zero (l : List Char) (a : Nat)
    (hd : l.all isDigitByte = true) :
    (foldDigits a l = 0 ↔ a = 0 ∧ l.all (fun c => decide (c = '0')) = true) := by
  induction l generalizing a with
  | nil => simp [foldDigits]
  | cons c rest ih =>
    simp only [List.all_cons, Bool.and_eq_true] at hd
    rw [show foldDigits a (c :: rest) = foldDigits (a * 10 + digitVal c) rest
          from rfl]
    rw [ih _ hd.2]
    constructor
    · rintro ⟨hz, hrest⟩
      have ha : a = 0 := by omega
      have hv : digitVal c = 0 := by omega
      have := char_eq_zero_of hd.1 hv
      simp [ha, this, hrest]
    · rintro ⟨ha, hall⟩
      simp only [List.all_cons, Bool.and_eq_true, decide_eq_true_eq] at hall
      constructor
      · simp [ha, hall.1, digitVal]
      · exact hall.2

theorem zeros_sentinel_cases (l : List Char) (h : zeros_sentinel l = true) :
    l = ['-'] ∨
      ∃ r, l = '0' :: '0' :: '0' :: '0' :: r ∧ zeros_sentinel r = true := by
  match l with
  | [] => simp [zeros_sentinel] at h
  | [c] =>
    simp only [zeros_sentinel, decide_eq_true_eq] at h
    exact Or.inl (by rw [h])
  | [a, b] => simp [zeros_sentinel] at h
  | [a, b, c] => simp [zeros_sentinel] at h
  | a :: b :: c :: d :: rest =>
    simp only [zeros_sentinel, Bool.and_eq_true, decide_eq_true_eq] at h
    obtain ⟨⟨⟨⟨ha, hb⟩, hc⟩, hd⟩, hr⟩ := h
    exact Or.inr ⟨rest, by rw [ha, hb, hc, hd], hr⟩

theorem zeros_sentinel_not_digits (l : List Char)
    (h : zeros_sentinel l = true) : l.all isDigitByte = false := by
  suffices hgen : ∀ n (l : List Char), l.length ≤ n → zeros_sentinel l = true →
      l.all isDigitByte = false from hgen l.length l le_rfl h
  intro n
  induction n with
  | zero =>
    intro l hl hz
    have : l = [] := List.eq_nil_of_length_eq_zero (by omega)
    rw [this] at hz
    simp [zeros_sentinel] at hz
  | succ n ih =>
    intro l hl hz
    rcases zeros_sentinel_cases l hz with h1 | ⟨r, hr, hzr⟩
    · subst h1; decide
    · subst hr
      simp only [List.length_cons] at hl
      have := ih r (by omega) hzr
      simp [this]

theorem zeros_sentinel_cons_zeros (r : List Char) :
    zeros_sentinel ('0' :: '0' :: '0' :: '0' :: r) = zeros_sentinel r := by
  simp [zeros_sentinel]

/-- The head condition of the `-2` branch of `read_counter_aux` holds exactly
on the singleton sentinel list. -/
theorem sentinel_head_iff (rest : List Char) :
    (rest.length = 1 ∧ rest.head? = some '-') ↔ rest = ['-'] := by
  match rest with
  | [] => simp
  | [c] => simp
  | a :: b :: t => simp

theorem read_counter_aux_spec (rest : List Char) (count : Nat) :
    read_counter_aux count rest = read_aux_val count rest := by
  suffices hgen : ∀ n (rest : List Char) (count : Nat), rest.length ≤ n →
      read_counter_aux count rest = read_aux_val count rest from
    hgen rest.length rest count le_rfl
  intro n
  induction n with
  | zero =>
    intro rest count hl
    have hnil : rest = [] := List.eq_nil_of_length_eq_zero (by omega)
    subst hnil
    simp [read_counter_aux, read_aux_val, zeros_sentinel, foldDigits]
  | succ n ih =>
    intro rest count hl
    by_cases hne : rest = []
    · subst hne
      simp [read_counter_aux, read_aux_val, zeros_sentinel, foldDigits]
    · by_cases hsent : count = 0 ∧ rest = ['-']
      · obtain ⟨hc, hr⟩ := hsent
        subst hc
        subst hr
        simp [read_counter_aux, read_aux_val, zeros_sentinel]
      · rw [read_counter_aux, read_aux_val]
        rw [dif_neg (by simpa using hne)]
        have hcond : ¬ (count = 0 ∧ rest.length = 1 ∧ rest.head? = some '-') := by
          rintro ⟨h1, h2⟩
          exact hsent ⟨h1, (sentinel_head_iff rest).mp h2⟩
        rw [if_neg hcond]
        by_cases hD : (rest.take 4).all isDigitByte = true
        · simp only [scanDigits_all _ _ hD]
          have hpos : 0 < rest.length := List.length_pos.mpr hne
          rw [ih (rest.drop 4) _ (by simp only [List.length_drop]; omega),
            read_aux_val]
          by_cases hZ : count = 0 ∧ zeros_sentinel rest = true
          · -- original list is the sentinel shape, with at least one chunk
            obtain ⟨hc, hz⟩ := hZ
            rcases zeros_sentinel_cases rest hz with h1 | ⟨r, hr, hzr⟩
            · exact absurd ⟨hc, h1⟩ hsent
            · subst hc
              have htake : rest.take 4 = ['0', '0', '0', '0'] := by
                rw [hr]; rfl
              have hdrop : rest.drop 4 = r := by rw [hr]; rfl
              have hfold : foldDigits 0 (rest.take 4) = 0 := by
                rw [htake]; decide
              rw [hdrop, if_pos ⟨hfold, hzr⟩, if_pos ⟨rfl, hz⟩]
          · rw [if_neg hZ]
            by_cases hA : rest.all isDigitByte = true
            · rw [if_pos hA]
              have hdropD : (rest.drop 4).all isDigitByte = true := by
                rw [List.all_eq_true] at hA ⊢
                exact fun c hc => hA c (List.drop_subset 4 rest hc)
              have hnz : ¬ (foldDigits count (rest.take 4) = 0 ∧
                  zeros_sentinel (rest.drop 4) = true) := by
                rintro ⟨_, hzd⟩
                have := zeros_sentinel_not_digits _ hzd
                rw [this] at hdropD
                exact Bool.false_ne_true hdropD
              rw [if_neg hnz, if_pos hdropD,
                ← foldDigits_append, List.take_append_drop]
            · rw [if_neg hA]
              have hnz : ¬ (foldDigits count (rest.take 4) = 0 ∧
                  zeros_sentinel (rest.drop 4) = true) := by
                rintro ⟨hf0, hzd⟩
                have hca := (foldDigits_eq_zero _ _ hD).mp hf0
                -- count = 0 and the chunk is all zeros
                have hlen4 : rest.length ≥ 4 := by
                  by_contra hlt
                  have : rest.drop 4 = [] := by
                    apply List.drop_eq_nil_of_le
                    omega
                  rw [this] at hzd
                  simp [zeros_sentinel] at hzd
                have htake : rest.take 4 = ['0', '0', '0', '0'] := by
                  have h4 : (rest.take 4).length = 4 := by
                    simp
                    omega
                  have hz4 := hca.2
                  match ht : rest.take 4 with
                  | [p, q, s, t] =>
                    rw [ht] at hz4
                    simp only [List.all_cons, Bool.and_eq_true,
                      decide_eq_true_eq] at hz4
                    obtain ⟨hp, hq, hs, ht', _⟩ := hz4
                    rw [hp, hq, hs, ht']
                  | [] => rw [ht] at h4; simp at h4
                  | [p] => rw [ht] at h4; simp at h4
                  | [p, q] => rw [ht] at h4; simp at h4
                  | [p, q, s] => rw [ht] at h4; simp at h4
                  | p :: q :: s :: t :: u :: v => rw [ht] at h4; simp at h4
                have hzrest : zeros_sentinel rest = true := by
                  have : rest = '0' :: '0' :: '0' :: '0' :: rest.drop 4 := by
                    conv_lhs => rw [← List.take_append_drop 4 rest]
                    rw [htake]
                    rfl
                  rw [this, zeros_sentinel_cons_zeros]
                  exact hzd
                exact hZ ⟨hca.1, hzrest⟩
              rw [if_neg hnz]
              have hdropA : ¬ (rest.drop 4).all isDigitByte = true := by
                intro hda
                apply hA
                rw [← List.take_append_drop 4 rest, List.all_append, hD, hda]
                rfl
              rw [if_neg hdropA]
        · simp only [(scanDigits_none_iff _ _).mpr (by simpa using hD)]
          have hrA : ¬ rest.all isDigitByte = true := by
            intro hra
            apply hD
            rw [List.all_eq_true] at hra ⊢
            exact fun c hc => hra c (List.take_subset 4 rest hc)
          rw [if_neg hrA]
          have hnz : ¬ (count = 0 ∧ zeros_sentinel rest = true) := by
            rintro ⟨hc, hz⟩
            rcases zeros_sentinel_cases rest hz with h1 | ⟨r, hr, _⟩
            · exact hsent ⟨hc, h1⟩
            · apply hD
              rw [hr]
              rfl
          rw [if_neg hnz]

/-- Full characterization of `read_counter`. -/
theorem read_counter_spec (cs : List Char) :
    read_counter cs =
      if zeros_sentinel cs = true then -2
      else if cs.all isDigitByte then Int.ofNat (foldDigits 0 cs)
      else -1 := by
  rw [read_counter, read_counter_aux_spec, read_aux_val]
  simp

theorem read_counter_digitsOf (n : Nat) :
    read_counter (digitsOf n) = Int.ofNat n := by
  rw [read_counter_spec]
  have hd := digitsOf_all_digits n
  have hz : zeros_sentinel (digitsOf n) ≠ true := by
    intro hz
    have := zeros_sentinel_not_digits _ hz
    rw [this] at hd
    exact Bool.false_ne_true hd
  rw [if_neg (by simp [hz]), if_pos hd, foldDigits_digitsOf]

/-! ## write_counter on the all-success oracle -/

theorem write_counter_allOk (c : List Char) (p : Nat) (m : Nat) :
    write_counter ⟨c, p⟩ (Int.ofNat m) wAllOk = (0, ⟨digitsOf m, intlen m⟩) := by
  have hbuf : print_int m (intlen m) = digitsOf m := print_int_intlen m
  have hlen : (digitsOf m).length = intlen m := digitsOf_length m
  rw [write_counter]
  rw [if_neg (by simp [wAllOk])]
  simp only []
  have hpos : (0 : Int) ≤ Int.ofNat m := Int.ofNat_le.mpr (Nat.zero_le m)
  rw [if_pos hpos, if_pos hpos]
  have htn : (Int.ofNat m).toNat = m := rfl
  simp only [wAllOk, htn, hbuf]
  rw [write_loop]
  simp only [List.drop_zero, Nat.sub_zero, writeBytes,
    List.take_of_length_le (le_of_eq hlen), List.take_zero, List.nil_append,
    Nat.zero_sub, List.replicate_zero, Nat.zero_add, if_pos rfl]
  simp only [ftruncModel, List.take_left' hlen, hlen,
    List.length_append, List.length_drop]
  simp [Nat.sub_eq_zero_of_le]

theorem write_counter_allOk_neg (c : List Char) (p : Nat) :
    write_counter ⟨c, p⟩ (-1) wAllOk = (0, ⟨['-'], 1⟩) := by
  rw [write_counter]
  rw [if_neg (by simp [wAllOk])]
  simp only []
  rw [if_neg (by decide), if_neg (by decide)]
  simp only [wAllOk]
  rw [write_loop]
  simp [writeBytes, ftruncModel]

theorem read_counter_nil : read_counter [] = 0 := by
  simp [read_counter, read_counter_aux]

/-! ## The derived runtime-directory path -/

theorem digitsOf_ne_nil (n : Nat) : digitsOf n ≠ [] := by
  rw [digitsOf]
  split <;> simp

theorem digitsOf_ne_nul (n : Nat) : ∀ c ∈ digitsOf n, c ≠ NUL := by
  induction n using Nat.strong_induction_on with
  | _ n ih =>
    rw [digitsOf]
    split
    · intro c hc
      simp only [List.mem_singleton] at hc
      subst hc
      exact digitChar_ne_nul (Nat.mod_lt n (by omega))
    · rename_i h
      intro c hc
      rw [List.mem_append] at hc
      rcases hc with hc | hc
      · exact ih _ (Nat.div_lt_self (by omega) (by omega)) c hc
      · simp only [List.mem_singleton] at hc
        subst hc
        exact digitChar_ne_nul (Nat.mod_lt n (by omega))

theorem cstring_append_nul (xs : List Char) (h : ∀ c ∈ xs, c ≠ NUL) :
    cstring (xs ++ [NUL]) = xs := by
  induction xs with
  | nil => simp [cstring]
  | cons a t ih =>
    have ha : a ≠ NUL := h a (List.mem_cons_self a t)
    have iht := ih (fun c hc => h c (List.mem_cons_of_mem a hc))
    simp only [cstring] at iht ⊢
    rw [List.cons_append, List.takeWhile_cons, if_pos (by simpa using ha), iht]

theorem rundir_path_eq (uid : Nat) :
    rundir_path uid = PARENT_DIR ++ '.' :: digitsOf uid
      ++ [(digitsOf uid).getLast (digitsOf_ne_nil uid)] := by
  have hds : (digitsOf uid).length = intlen uid := digitsOf_length uid
  have hlpos : 1 ≤ intlen uid := intlen_pos uid
  have hbuf : print_filename uid (intlen uid)
      = PARENT_DIR ++ ['/'] ++ ['.'] ++ digitsOf uid ++ [NUL] := by
    rw [print_filename, print_int_intlen]
  have hsplit : digitsOf uid
      = (digitsOf uid).dropLast ++ [(digitsOf uid).getLast (digitsOf_ne_nil uid)] :=
    (List.dropLast_append_getLast _).symm
  have hdl : (digitsOf uid).dropLast.length = intlen uid - 1 := by
    rw [List.length_dropLast, hds]
  rw [rundir_path, rundir_buf, hbuf, memmove_model]
  simp only [List.append_assoc]
  have hP : PARENT_DIR.length = 9 := rfl
  rw [hP]
  have h1 : (PARENT_DIR ++ (['/'] ++ (['.'] ++ (digitsOf uid ++ [NUL])))).take 9
      = PARENT_DIR := List.take_left' hP
  have h2 : (PARENT_DIR ++ (['/'] ++ (['.'] ++ (digitsOf uid ++ [NUL])))).drop (9 + 1)
      = ['.'] ++ (digitsOf uid ++ [NUL]) := by
    rw [List.drop_append_eq_append_drop]
    rw [List.drop_of_length_le (by rw [hP]; omega), hP]
    simp
  have h3 : (['.'] ++ (digitsOf uid ++ [NUL])).take (intlen uid + 1)
      = '.' :: digitsOf uid := by
    rw [List.take_append_eq_append_take]
    rw [List.take_of_length_le (by simp)]
    simp only [List.length_singleton]
    rw [List.take_append_eq_append_take]
    rw [List.take_of_length_le (by rw [hds]; omega), hds]
    have e1 : intlen uid + 1 - 1 - intlen uid = 0 := by omega
    rw [e1]
    simp
  have h4 : (PARENT_DIR ++ (['/'] ++ (['.'] ++ (digitsOf uid ++ [NUL])))).drop
        (9 + (intlen uid + 1))
      = [(digitsOf uid).getLast (digitsOf_ne_nil uid)] ++ [NUL] := by
    rw [List.drop_append_eq_append_drop]
    rw [List.drop_of_length_le (by rw [hP]; omega), hP, List.nil_append]
    rw [List.drop_append_eq_append_drop]
    rw [List.drop_of_length_le (by simp only [List.length_singleton]; omega)]
    simp only [List.length_singleton, List.nil_append]
    rw [List.drop_append_eq_append_drop]
    rw [List.drop_of_length_le (by simp only [List.length_singleton]; omega)]
    simp only [List.length_singleton, List.nil_append]
    have e1 : 9 + (intlen uid + 1) - 9 - 1 - 1 = intlen uid - 1 := by omega
    rw [e1]
    rw [List.drop_append_eq_append_drop, hds]
    have e2 : intlen uid - 1 - intlen uid = 0 := by omega
    rw [e2, List.drop_zero]
    conv_lhs => rw [hsplit]
    rw [List.drop_append_eq_append_drop, hdl]
    rw [List.drop_of_length_le (by rw [hdl])]
    have e3 : intlen uid - 1 - (intlen uid - 1) = 0 := by omega
    rw [e3, List.drop_zero]
    simp
  rw [h1, h2, h3, h4]
  have hmem : ∀ c ∈ PARENT_DIR ++ ('.' :: (digitsOf uid
      ++ [(digitsOf uid).getLast (digitsOf_ne_nil uid)])), c ≠ NUL := by
    intro c hc
    simp only [List.mem_append, List.mem_cons, List.mem_singleton,
      List.not_mem_nil, or_false] at hc
    rcases hc with hc | hc | hc | hc
    · have hP9 : ∀ c ∈ PARENT_DIR, c ≠ NUL := by decide
      exact hP9 c hc
    · subst hc; decide
    · exact digitsOf_ne_nul uid c hc
    · subst hc; exact digitsOf_ne_nul uid _ (List.getLast_mem _)
  have hfin := cstring_append_nul _ hmem
  simp only [List.append_assoc, List.cons_append] at hfin ⊢
  exact hfin

theorem rundir_path_length (uid : Nat) :
    (rundir_path uid).length = intlen uid + 11 := by
  rw [rundir_path_eq]
  simp [digitsOf_length]
  have : PARENT_DIR.length = 9 := rfl
  omega

/-! ## rmrf on simple shapes -/

theorem rmrf_empty_dir (path : List Char) (h : path.length < MAX_PATH_LEN - 1) :
    rmrf path (.dir []) = (0, none) := by
  rw [rmrf]
  rw [if_neg (by omega)]
  rw [rmrfEntries]

/-! ## The lock retry loop -/

theorem flock_loop_attempts (flocks : Nat → FlockStep) :
    ∀ (k retries a s : Nat), LOCK_RETRIES - retries ≤ k →
      (flock_loop flocks retries a s).attempts ≤ a + k := by
  intro k
  induction k with
  | zero =>
    intro retries a s h
    rw [flock_loop, if_neg (by simp [LOCK_RETRIES] at h ⊢; omega)]
    simp
  | succ k ih =>
    intro retries a s h
    rw [flock_loop]
    by_cases hr : retries < LOCK_RETRIES
    · rw [if_pos hr]
      cases hstep : flocks retries with
      | ok =>
        show a + 1 ≤ a + (k + 1)
        omega
      | err =>
        show a + 1 ≤ a + (k + 1)
        omega
      | wouldBlock =>
        have hrec := ih (retries + 1) (a + 1) (s + 1) (by omega)
        show (flock_loop flocks (retries + 1) (a + 1) (s + 1)).attempts
          ≤ a + (k + 1)
        omega
      | eintr =>
        have hrec := ih (retries + 1) (a + 1) (s + 1) (by omega)
        show (flock_loop flocks (retries + 1) (a + 1) (s + 1)).attempts
          ≤ a + (k + 1)
        omega
    · rw [if_neg hr]
      show a ≤ a + (k + 1)
      omega

theorem open_and_lock_lock_attempts (flocks : Nat → FlockStep) :
    (open_and_lock_lock flocks).attempts ≤ LOCK_RETRIES := by
  have := flock_loop_attempts flocks LOCK_RETRIES 0 0 0 (by omega)
  simpa [open_and_lock_lock] using this

theorem flock_loop_exhausted (flocks : Nat → FlockStep)
    (h : ∀ i, i < LOCK_RETRIES → flocks i = .wouldBlock) :
    ∀ (j a s : Nat), j ≤ LOCK_RETRIES →
      flock_loop flocks (LOCK_RETRIES - j) a s = ⟨false, a + j, s + j⟩ := by
  intro j
  induction j with
  | zero =>
    intro a s _
    rw [flock_loop, if_neg (by omega)]
    simp
  | succ j ih =>
    intro a s hj
    rw [flock_loop, if_pos (by omega),
      h (LOCK_RETRIES - (j + 1)) (by omega)]
    show flock_loop flocks (LOCK_RETRIES - (j + 1) + 1) (a + 1) (s + 1)
      = ⟨false, a + (j + 1), s + (j + 1)⟩
    have harith : LOCK_RETRIES - (j + 1) + 1 = LOCK_RETRIES - j := by omega
    rw [harith, ih (a + 1) (s + 1) (by omega)]
    have h1 : a + 1 + j = a + (j + 1) := by omega
    have h2 : s + 1 + j = s + (j + 1) := by omega
    rw [h1, h2]

theorem open_and_lock_lock_exhausted (flocks : Nat → FlockStep)
    (h : ∀ i, i < LOCK_RETRIES → flocks i = .wouldBlock) :
    open_and_lock_lock flocks = ⟨false, LOCK_RETRIES, LOCK_RETRIES⟩ := by
  have := flock_loop_exhausted flocks h LOCK_RETRIES 0 0 le_rfl
  simpa [open_and_lock_lock] using this

theorem open_and_lock_lock_flocksOk :
    open_and_lock_lock flocksOk = ⟨true, 1, 0⟩ := by
  rw [open_and_lock_lock]
  rw [flock_loop, if_pos (by simp [LOCK_RETRIES])]
  rfl

theorem open_and_lock_session_ok (content : Option (List Char)) :
    open_and_lock_session rootParent content flocksOk = some (content.getD []) := by
  rw [open_and_lock_session]
  rw [if_neg (by simp [rootParent])]
  rw [open_and_lock_lock_flocksOk]
  simp

/-! ## Small evaluation facts -/

theorem ensure_rootParent : ensure_parent_dir rootParent eAllOk
    = ⟨true, rootParent, none⟩ := rfl

theorem digitsOf_zero : digitsOf 0 = ['0'] := by
  rw [digitsOf]
  simp [digitChar, DIGITS]

theorem digitsOf_one : digitsOf 1 = ['1'] := by
  rw [digitsOf]
  simp [digitChar, DIGITS]

theorem intlen_zero : intlen 0 = 1 := by
  rw [intlen]
  simp

theorem intlen_one : intlen 1 = 1 := by
  rw [intlen]
  simp

theorem read_counter_one : read_counter ['1'] = 1 := by
  have := read_counter_digitsOf 1
  rwa [digitsOf_one] at this

/-! ## Session-start runs -/

theorem open_allOk_run (uid gid : Nat) (h : intlen uid ≤ MAX_UID_LENGTH) :
    pam_sm_open_session creds0 w0 (oOpenAllOk uid gid) =
      (.success,
       ⟨rootParent, some ['1'], some ⟨.dir [], (uid, gid), S_IRWXU⟩, true, true⟩,
       ⟨uid, gid⟩) := by
  have hl : ¬ (intlen uid = 0 ∨ intlen uid > MAX_UID_LENGTH) := by
    have := intlen_pos uid
    omega
  have hw1 : write_counter ⟨[], 0⟩ 1 wAllOk = (0, ⟨['1'], 1⟩) := by
    have := write_counter_allOk [] 0 1
    rwa [digitsOf_one, intlen_one] at this
  simp [pam_sm_open_session, oOpenAllOk, creds0, w0, hl, ensure_rootParent,
    open_and_lock_session_ok, read_counter_nil, hw1, open_after_mkdir]

theorem open_mallocFail_run (uid gid : Nat) (h : intlen uid ≤ MAX_UID_LENGTH) :
    pam_sm_open_session creds0 w0 (oOpenMallocFail uid gid) =
      (.sessionErr, ⟨rootParent, some ['0'], none, false, false⟩, creds0) := by
  have hl : ¬ (intlen uid = 0 ∨ intlen uid > MAX_UID_LENGTH) := by
    have := intlen_pos uid
    omega
  have hw1 : write_counter ⟨[], 0⟩ 1 wAllOk = (0, ⟨['1'], 1⟩) := by
    have := write_counter_allOk [] 0 1
    rwa [digitsOf_one, intlen_one] at this
  have hw0 : write_counter ⟨['1'], 0⟩ 0 wAllOk = (0, ⟨['0'], 1⟩) := by
    have h' := write_counter_allOk ['1'] 0 0
    rw [digitsOf_zero, intlen_zero] at h'
    exact h'
  simp [pam_sm_open_session, oOpenMallocFail, oOpenAllOk, creds0, w0, hl,
    ensure_rootParent, open_and_lock_session_ok, read_counter_nil, hw1,
    revert_counter, hw0]

theorem open_mkdirFail_run (uid gid : Nat) (h : intlen uid ≤ MAX_UID_LENGTH) :
    pam_sm_open_session creds0 w0 (oOpenMkdirFail uid gid) =
      (.sessionErr, ⟨rootParent, some ['0'], none, false, false⟩, creds0) := by
  have hl : ¬ (intlen uid = 0 ∨ intlen uid > MAX_UID_LENGTH) := by
    have := intlen_pos uid
    omega
  have hw1 : write_counter ⟨[], 0⟩ 1 wAllOk = (0, ⟨['1'], 1⟩) := by
    have := write_counter_allOk [] 0 1
    rwa [digitsOf_one, intlen_one] at this
  have hw0 : write_counter ⟨['1'], 0⟩ 0 wAllOk = (0, ⟨['0'], 1⟩) := by
    have h' := write_counter_allOk ['1'] 0 0
    rw [digitsOf_zero, intlen_zero] at h'
    exact h'
  simp [pam_sm_open_session, oOpenMkdirFail, oOpenAllOk, creds0, w0, hl,
    ensure_rootParent, open_and_lock_session_ok, read_counter_nil, hw1,
    revert_counter, restore_privs, hw0, creds0]

theorem open_putenvFail_run (uid gid : Nat) (h : intlen uid ≤ MAX_UID_LENGTH) :
    pam_sm_open_session creds0 w0 (oOpenPutenvFail uid gid) =
      (.sessionErr,
       ⟨rootParent, some ['0'], some ⟨.dir [], (uid, gid), S_IRWXU⟩, false, false⟩,
       creds0) := by
  have hl : ¬ (intlen uid = 0 ∨ intlen uid > MAX_UID_LENGTH) := by
    have := intlen_pos uid
    omega
  have hw1 : write_counter ⟨[], 0⟩ 1 wAllOk = (0, ⟨['1'], 1⟩) := by
    have := write_counter_allOk [] 0 1
    rwa [digitsOf_one, intlen_one] at this
  have hw0 : write_counter ⟨['1'], 0⟩ 0 wAllOk = (0, ⟨['0'], 1⟩) := by
    have h' := write_counter_allOk ['1'] 0 0
    rw [digitsOf_zero, intlen_zero] at h'
    exact h'
  simp [pam_sm_open_session, oOpenPutenvFail, oOpenAllOk, creds0, w0, hl,
    ensure_rootParent, open_and_lock_session_ok, read_counter_nil, hw1,
    revert_counter, restore_privs, hw0, open_after_mkdir]

theorem open_seteuidFail_run (uid gid : Nat) (h : intlen uid ≤ MAX_UID_LENGTH) :
    pam_sm_open_session creds0 w0 (oOpenSeteuidFail uid gid) =
      (.sessionErr, ⟨rootParent, some ['0'], none, false, false⟩, ⟨0, gid⟩) := by
  have hl : ¬ (intlen uid = 0 ∨ intlen uid > MAX_UID_LENGTH) := by
    have := intlen_pos uid
    omega
  have hw1 : write_counter ⟨[], 0⟩ 1 wAllOk = (0, ⟨['1'], 1⟩) := by
    have := write_counter_allOk [] 0 1
    rwa [digitsOf_one, intlen_one] at this
  have hw0 : write_counter ⟨['1'], 0⟩ 0 wAllOk = (0, ⟨['0'], 1⟩) := by
    have h' := write_counter_allOk ['1'] 0 0
    rw [digitsOf_zero, intlen_zero] at h'
    exact h'
  simp [pam_sm_open_session, oOpenSeteuidFail, oOpenAllOk, creds0, w0, hl,
    ensure_rootParent, open_and_lock_session_ok, read_counter_nil, hw1,
    revert_counter, hw0]

/-! ## Session-end runs -/

theorem rundir_path_short (uid : Nat) (h : intlen uid ≤ MAX_UID_LENGTH) :
    (rundir_path uid).length < MAX_PATH_LEN - 1 := by
  rw [rundir_path_length]
  rw [MAX_UID_LENGTH] at h
  rw [MAX_PATH_LEN]
  omega

theorem close_zero_run (uid gid n : Nat) (e : Bool)
    (h : intlen uid ≤ MAX_UID_LENGTH) (hn : n ≤ 1) :
    pam_sm_close_session creds0
      ⟨rootParent, some (digitsOf n), some (emptyRunDir uid gid), true, e⟩
      (oCloseAllOk uid gid) =
      ⟨.success, ⟨rootParent, some ['0'], none, false, e⟩, true⟩ := by
  have hl : ¬ (intlen uid = 0 ∨ intlen uid > MAX_UID_LENGTH) := by
    have := intlen_pos uid
    omega
  have hrm := rmrf_empty_dir (rundir_path uid) (rundir_path_short uid h)
  have hw0 : ∀ c p, write_counter ⟨c, p⟩ 0 wAllOk = (0, ⟨['0'], 1⟩) := by
    intro c p
    have h' := write_counter_allOk c p 0
    rw [digitsOf_zero, intlen_zero] at h'
    exact h'
  have hr0 : read_counter ['0'] = 0 := by
    have := read_counter_digitsOf 0
    rw [digitsOf_zero] at this
    exact this
  interval_cases n
  · simp [pam_sm_close_session, oCloseAllOk, creds0, hl, ensure_rootParent,
      open_and_lock_session_ok, digitsOf_zero, hr0,
      rmrfAt, emptyRunDir, hrm, hw0]
  · simp [pam_sm_close_session, oCloseAllOk, creds0, hl, ensure_rootParent,
      open_and_lock_session_ok, digitsOf_one, read_counter_one,
      rmrfAt, emptyRunDir, hrm, hw0]

theorem close_gone_run (uid gid : Nat) (e : Bool)
    (h : intlen uid ≤ MAX_UID_LENGTH) :
    pam_sm_close_session creds0
      ⟨rootParent, some ['1'], none, true, e⟩
      (oCloseAllOk uid gid) =
      ⟨.sessionErr, ⟨rootParent, some ['-'], none, false, e⟩, true⟩ := by
  have hl : ¬ (intlen uid = 0 ∨ intlen uid > MAX_UID_LENGTH) := by
    have := intlen_pos uid
    omega
  simp [pam_sm_close_session, oCloseAllOk, creds0, hl, ensure_rootParent,
    open_and_lock_session_ok, read_counter_one, rmrfAt,
    write_counter_allOk_neg]

theorem close_mid_run (uid gid n : Nat) (e : Bool)
    (h : intlen uid ≤ MAX_UID_LENGTH) (hn : 2 ≤ n) (rd : Option RunDir) :
    pam_sm_close_session creds0
      ⟨rootParent, some (digitsOf n), rd, true, e⟩
      (oCloseAllOk uid gid) =
      ⟨.success, ⟨rootParent, some (digitsOf (n - 1)), rd, false, e⟩, false⟩ := by
  have hl : ¬ (intlen uid = 0 ∨ intlen uid > MAX_UID_LENGTH) := by
    have := intlen_pos uid
    omega
  have hnlt : ¬ ((n : Int) < 0) := by omega
  have hngt : 0 < n := by omega
  have hne0 : ¬ ((n : Int) - 1 = 0) := by omega
  have hsub : (n : Int) - 1 = ((n - 1 : Nat) : Int) := by omega
  have hwm : write_counter ⟨digitsOf n, 0⟩ ((n : Int) - 1) wAllOk
      = (0, ⟨digitsOf (n - 1), intlen (n - 1)⟩) := by
    rw [hsub]
    exact write_counter_allOk (digitsOf n) 0 (n - 1)
  simp [pam_sm_close_session, oCloseAllOk, creds0, hl, ensure_rootParent,
    open_and_lock_session_ok, read_counter_digitsOf, hnlt, hngt, hne0, hwm]

theorem close_gone_zero_run (uid gid n : Nat) (e : Bool)
    (h : intlen uid ≤ MAX_UID_LENGTH) (hn : n ≤ 1) :
    pam_sm_close_session creds0
      ⟨rootParent, some (digitsOf n), none, true, e⟩
      (oCloseAllOk uid gid) =
      ⟨.sessionErr, ⟨rootParent, some ['-'], none, false, e⟩, true⟩ := by
  have hl : ¬ (intlen uid = 0 ∨ intlen uid > MAX_UID_LENGTH) := by
    have := intlen_pos uid
    omega
  have hr0 : read_counter ['0'] = 0 := by
    have := read_counter_digitsOf 0
    rw [digitsOf_zero] at this
    exact this
  interval_cases n
  · simp [pam_sm_close_session, oCloseAllOk, creds0, hl, ensure_rootParent,
      open_and_lock_session_ok, digitsOf_zero, hr0, rmrfAt,
      write_counter_allOk_neg]
  · simp [pam_sm_close_session, oCloseAllOk, creds0, hl, ensure_rootParent,
      open_and_lock_session_ok, digitsOf_one, read_counter_one, rmrfAt,
      write_counter_allOk_neg]

/-! ## Claims -/

/-- C1 counterexample: a fully successful session-start at uid 1000 returns
Success while the effective uid is still 1000, not the original root
identity — the success path never restores privileges. -/
theorem C1_counterexample :
    (pam_sm_open_session creds0 w0 (oOpenAllOk 1000 1000)).1
      = PamResult.success ∧
    (pam_sm_open_session creds0 w0 (oOpenAllOk 1000 1000)).2.2.euid = 1000 ∧
    (1000 : Nat) ≠ 0 := by
  have h := open_allOk_run 1000 1000 (by simp [intlen, MAX_UID_LENGTH])
  rw [h]
  exact ⟨rfl, rfl, by decide⟩

/-- C1 (amended): the effective identity is restored to root only on the
failure paths that pass through the restore branch (runtime-directory mkdir
failure and env-publication failure); the successful session-start returns
with the effective identity still dropped to the target user, and a failed
seteuid after a successful setegid leaves the dropped gid in place. -/
theorem C1_amended (uid gid : Nat) (h : intlen uid ≤ MAX_UID_LENGTH) :
    (pam_sm_open_session creds0 w0 (oOpenMkdirFail uid gid)).2.2 = creds0 ∧
    (pam_sm_open_session creds0 w0 (oOpenMkdirFail uid gid)).1
      = PamResult.sessionErr ∧
    (pam_sm_open_session creds0 w0 (oOpenPutenvFail uid gid)).2.2 = creds0 ∧
    (pam_sm_open_session creds0 w0 (oOpenPutenvFail uid gid)).1
      = PamResult.sessionErr ∧
    (pam_sm_open_session creds0 w0 (oOpenAllOk uid gid)).2.2
      = ⟨uid, gid⟩ ∧
    (pam_sm_open_session creds0 w0 (oOpenSeteuidFail uid gid)).2.2
      = ⟨0, gid⟩ := by
  rw [open_mkdirFail_run uid gid h, open_putenvFail_run uid gid h,
    open_allOk_run uid gid h, open_seteuidFail_run uid gid h]
  exact ⟨rfl, rfl, rfl, rfl, rfl, rfl⟩

/-- C1 witness: the amended statement instantiated at uid = gid = 1000. -/
theorem C1_witness :
    (pam_sm_open_session creds0 w0 (oOpenMkdirFail 1000 1000)).2.2 = creds0 ∧
    (pam_sm_open_session creds0 w0 (oOpenAllOk 1000 1000)).2.2
      = ⟨1000, 1000⟩ := by
  have h := C1_amended 1000 1000 (by simp [intlen, MAX_UID_LENGTH])
  exact ⟨h.1, h.2.2.2.2.1⟩

/-- C2 counterexample: session-end at count 1 whose removal step fails (the
directory is externally gone) writes the sentinel byte to the counter, not
the decremented value 0, refuting "the decremented value is still written". -/
theorem C2_counterexample :
    (pam_sm_close_session creds0 (closeWorld ['1'] none)
        (oCloseAllOk 1000 1000)).result = PamResult.sessionErr ∧
    (pam_sm_close_session creds0 (closeWorld ['1'] none)
        (oCloseAllOk 1000 1000)).world.counterFile = some ['-'] ∧
    (some ['-'] : Option (List Char)) ≠ some ['0'] := by
  have h := close_gone_run 1000 1000 false (by simp [intlen, MAX_UID_LENGTH])
  rw [show closeWorld ['1'] none
      = ⟨rootParent, some ['1'], none, true, false⟩ from rfl, h]
  exact ⟨rfl, rfl, by decide⟩

/-- C2 (amended): for a session-end with the token present and counter
content the decimal of n, the counter is decremented with a floor at 0 and
the removal step runs exactly when the decremented value is 0; if removal
succeeds the decremented value 0 is written, but if removal fails the
overall result is an error and the SENTINEL byte is written in place of the
decremented value. -/
theorem C2_amended (uid gid n : Nat) (e : Bool)
    (h : intlen uid ≤ MAX_UID_LENGTH) :
    (n ≤ 1 →
      pam_sm_close_session creds0
        ⟨rootParent, some (digitsOf n), some (emptyRunDir uid gid), true, e⟩
        (oCloseAllOk uid gid)
      = ⟨.success, ⟨rootParent, some ['0'], none, false, e⟩, true⟩) ∧
    (2 ≤ n →
      pam_sm_close_session creds0
        ⟨rootParent, some (digitsOf n), some (emptyRunDir uid gid), true, e⟩
        (oCloseAllOk uid gid)
      = ⟨.success, ⟨rootParent, some (digitsOf (n - 1)),
          some (emptyRunDir uid gid), false, e⟩, false⟩) ∧
    (n ≤ 1 →
      pam_sm_close_session creds0
        ⟨rootParent, some (digitsOf n), none, true, e⟩
        (oCloseAllOk uid gid)
      = ⟨.sessionErr, ⟨rootParent, some ['-'], none, false, e⟩, true⟩) := by
  refine ⟨fun hn => ?_, fun hn => ?_, fun hn => ?_⟩
  · exact close_zero_run uid gid n e h hn
  · exact close_mid_run uid gid n e h hn (some (emptyRunDir uid gid))
  · exact close_gone_zero_run uid gid n e h hn

/-- C2 witness: the amended statement at uid = gid = 1000, counts 2 and 1. -/
theorem C2_witness :
    (pam_sm_close_session creds0
        ⟨rootParent, some (digitsOf 2), some (emptyRunDir 1000 1000), true, false⟩
        (oCloseAllOk 1000 1000)
      = ⟨.success, ⟨rootParent, some (digitsOf 1),
          some (emptyRunDir 1000 1000), false, false⟩, false⟩) ∧
    (pam_sm_close_session creds0
        ⟨rootParent, some (digitsOf 1), some (emptyRunDir 1000 1000), true, false⟩
        (oCloseAllOk 1000 1000)
      = ⟨.success, ⟨rootParent, some ['0'], none, false, false⟩, true⟩) ∧
    (pam_sm_close_session creds0
        ⟨rootParent, some (digitsOf 1), none, true, false⟩
        (oCloseAllOk 1000 1000)
      = ⟨.sessionErr, ⟨rootParent, some ['-'], none, false, false⟩, true⟩) := by
  have h2 := C2_amended 1000 1000 2 false (by simp [intlen, MAX_UID_LENGTH])
  have h1 := C2_amended 1000 1000 1 false (by simp [intlen, MAX_UID_LENGTH])
  exact ⟨h2.2.1 (by omega), h1.1 (by omega), h1.2.2 (by omega)⟩

/-- C3: the claim is right and the code is wrong.  Because `int w = 0;` is
declared inside the write loop, a partial write is retried from buffer
index 0 at the advanced file offset: writing 10 over prior content "7" with
a 1-byte partial write then a hard failure leaves "1" (a partially written
number, no sentinel self-heal, since the `w > 0` guard never fires); with a
1-byte partial write then a full write it persists "11", a wrong value.
Only the truncation-failure path self-heals to the sentinel as specified. -/
theorem C3_thm :
    write_counter ⟨['7'], 5⟩ 10 wPartialErr = (-1, ⟨['1'], 1⟩) ∧
    (['1'] : List Char) ≠ ['-'] ∧
    (['1'] : List Char) ≠ digitsOf 10 ∧
    write_counter ⟨['7'], 5⟩ 10 wPartialOk = (0, ⟨['1', '1'], 3⟩) ∧
    read_counter ['1', '1'] = 11 ∧
    write_counter ⟨['7'], 5⟩ 10 wTruncFail = (-1, ⟨['-'], 1⟩) := by
  have hd10 : digitsOf 10 = ['1', '0'] := by
    rw [digitsOf, digitsOf]
    simp [digitChar, DIGITS]
  have hi10 : intlen 10 = 2 := by
    rw [intlen, intlen]
    simp
  have hr11 : read_counter ['1', '1'] = 11 := by
    rw [read_counter_spec]
    decide
  refine ⟨?_, by decide, by rw [hd10]; decide, ?_, hr11, ?_⟩
  · simp [write_counter, wPartialErr, write_loop, writeBytes, print_int,
      hd10, hi10]
  · simp [write_counter, wPartialOk, write_loop, writeBytes, print_int,
      ftruncModel, hd10, hi10]
  · simp [write_counter, wTruncFail, write_loop, writeBytes, print_int,
      ftruncModel, emergency_invalidate_counter, hd10, hi10]

/-- C4 counterexample: content "0000-" is not the single sentinel byte, yet
read(handle) returns Sentinel for it (the all-zero 4-byte chunk leaves the
accumulator at 0, and the final '-' arrives alone in a 1-byte read). -/
theorem C4_counterexample :
    read_counter ['0', '0', '0', '0', '-'] = -2 ∧
    (['0', '0', '0', '0', '-'] : List Char) ≠ ['-'] := by
  constructor
  · rw [read_counter_spec]
    decide
  · decide

/-- C4 (amended): read(handle) returns 0 for empty content, the decimal
value for all-digit content, Sentinel exactly for contents made of 4k '0'
bytes followed by the sentinel byte (k = 0 giving the single sentinel byte),
and Corrupt for everything else. -/
theorem C4_thm (cs : List Char) :
    read_counter cs =
      if zeros_sentinel cs = true then -2
      else if cs.all isDigitByte then Int.ofNat (foldDigits 0 cs)
      else -1 :=
  read_counter_spec cs

/-- C5 counterexample: when the runtime directory was already externally
deleted and session-end drives the count to 0, the result is SessionError,
not Success — `unlink` fails with ENOENT, which is not EISDIR, so `rmrf`
reports failure and the hook treats it as fatal. -/
theorem C5_counterexample :
    (pam_sm_close_session creds0 (closeWorld ['1'] none)
        (oCloseAllOk 7 7)).result = PamResult.sessionErr ∧
    PamResult.sessionErr ≠ PamResult.success := by
  have h := close_gone_run 7 7 false (by simp [intlen, MAX_UID_LENGTH])
  rw [show closeWorld ['1'] none
      = ⟨rootParent, some ['1'], none, true, false⟩ from rfl, h]
  exact ⟨rfl, by decide⟩

/-- C5 (amended): an externally deleted runtime directory makes the removal
step fail (ENOENT from unlink is treated as an error, not as already-absent),
so session-end returns SessionError and writes the sentinel byte to the
counter. -/
theorem C5_amended (uid gid : Nat) (e : Bool)
    (h : intlen uid ≤ MAX_UID_LENGTH) :
    pam_sm_close_session creds0
      ⟨rootParent, some ['1'], none, true, e⟩
      (oCloseAllOk uid gid) =
      ⟨.sessionErr, ⟨rootParent, some ['-'], none, false, e⟩, true⟩ :=
  close_gone_run uid gid e h

/-- C5 witness: the amended statement at uid = gid = 1000. -/
theorem C5_witness :
    pam_sm_close_session creds0
      ⟨rootParent, some ['1'], none, true, false⟩
      (oCloseAllOk 1000 1000) =
      ⟨.sessionErr, ⟨rootParent, some ['-'], none, false, false⟩, true⟩ :=
  C5_amended 1000 1000 false (by simp [intlen, MAX_UID_LENGTH])

/-- C6: the claim is right and the code is wrong.  On allocation failure
the hook sets r = PAM_BUF_ERR, but the revert label unconditionally
overwrites it with PAM_SESSION_ERR (a dead store, followed by a dead
`if (r != PAM_SUCCESS)` check), so the hook returns SessionError, not
BufferError; the counter is indeed reverted to its pre-increment value. -/
theorem C6_thm :
    pam_sm_open_session creds0 w0 (oOpenMallocFail 1000 1000)
      = (.sessionErr, ⟨rootParent, some ['0'], none, false, false⟩, creds0) ∧
    PamResult.sessionErr ≠ PamResult.bufErr := by
  exact ⟨open_mallocFail_run 1000 1000 (by simp [intlen, MAX_UID_LENGTH]), by decide⟩

/-- C7: the lock loop makes at most LOCK_RETRIES = 5 flock attempts,
sleeping LOCK_RETRY_DELAY = 100000 µs (100 ms) after each failed one, and
when every attempt finds the lock held it returns failure (mapped to a
lock-timeout error by the callers) after exactly 5 attempts and 5 delays —
it never blocks indefinitely. -/
theorem C7_thm (flocks : Nat → FlockStep) :
    (open_and_lock_lock flocks).attempts ≤ LOCK_RETRIES ∧
    LOCK_RETRIES = 5 ∧ LOCK_RETRY_DELAY = 100000 ∧
    ((∀ i, i < LOCK_RETRIES → flocks i = .wouldBlock) →
      open_and_lock_lock flocks
        = ⟨false, LOCK_RETRIES, LOCK_RETRIES⟩) :=
  ⟨open_and_lock_lock_attempts flocks, rfl, rfl,
   open_and_lock_lock_exhausted flocks⟩

/-- C7 witness: with every flock attempt finding the lock held, the loop
fails after exactly 5 attempts. -/
theorem C7_witness :
    open_and_lock_lock (fun _ => FlockStep.wouldBlock)
      = ⟨false, LOCK_RETRIES, LOCK_RETRIES⟩ ∧
    (open_and_lock_lock (fun _ => FlockStep.wouldBlock)).attempts
      ≤ LOCK_RETRIES := by
  have h := C7_thm (fun _ => FlockStep.wouldBlock)
  exact ⟨h.2.2.2 (fun i _ => rfl), h.1⟩

/-- C8 counterexample: when the parent is absent it is created with mode
0775 — group-writable — not owner-rwx/group-other-r-x, because the process
umask masks only other-write; so there IS a window in which the directory
is writable by the (root) group. -/
theorem C8_counterexample :
    (ensure_parent_dir pAbsent eAllOk).createdMode = some 0o775 ∧
    0o775 &&& S_IWGRP ≠ 0 ∧
    (0o775 : Nat) ≠ 0o755 := by
  refine ⟨rfl, by decide, by decide⟩

/-- C8 (amended): an absent parent is created under umask(S_IWOTH) with
requested mode 0775, so its creation-time mode is 0775 (group-writable
window); the follow-up chmod then tightens it to 0755; a path that exists
but is not a directory makes ensure() fail. -/
theorem C8_thm :
    ensure_parent_dir pAbsent eAllOk
      = ⟨true, ⟨true, true, 0o755, (0, 0)⟩, some 0o775⟩ ∧
    applyUmask (S_IRWXU ||| S_IRWXG ||| S_IROTH ||| S_IXOTH) S_IWOTH
      = 0o775 ∧
    (ensure_parent_dir pNonDir eAllOk).ok = false := by
  exact ⟨rfl, by decide, rfl⟩

/-- C9: starting from no counter file and no runtime directory, a successful
session-start leaves the runtime directory existing and the counter at "1";
the following session-end removes the directory, returns Success, and leaves
the counter file at "0". -/
theorem C9_thm (uid gid : Nat) (h : intlen uid ≤ MAX_UID_LENGTH) :
    (pam_sm_open_session creds0 w0 (oOpenAllOk uid gid)).1
      = PamResult.success ∧
    ((pam_sm_open_session creds0 w0 (oOpenAllOk uid gid)).2.1.runDir).isSome
      = true ∧
    (pam_sm_open_session creds0 w0 (oOpenAllOk uid gid)).2.1.counterFile
      = some ['1'] ∧
    (pam_sm_close_session creds0
        (pam_sm_open_session creds0 w0 (oOpenAllOk uid gid)).2.1
        (oCloseAllOk uid gid)).result = PamResult.success ∧
    (pam_sm_close_session creds0
        (pam_sm_open_session creds0 w0 (oOpenAllOk uid gid)).2.1
        (oCloseAllOk uid gid)).world.runDir = none ∧
    (pam_sm_close_session creds0
        (pam_sm_open_session creds0 w0 (oOpenAllOk uid gid)).2.1
        (oCloseAllOk uid gid)).world.counterFile = some ['0'] := by
  have hopen := open_allOk_run uid gid h
  have hclose := close_zero_run uid gid 1 true h (by omega)
  rw [digitsOf_one] at hclose
  have hrd : (⟨FsNode.dir [], (uid, gid), S_IRWXU⟩ : RunDir)
      = emptyRunDir uid gid := rfl
  rw [hopen]
  simp [hrd, hclose]

/-- C9 witness: the lifecycle round trip at uid = gid = 1000. -/
theorem C9_witness :
    (pam_sm_open_session creds0 w0 (oOpenAllOk 1000 1000)).1
      = PamResult.success ∧
    (pam_sm_close_session creds0
        (pam_sm_open_session creds0 w0 (oOpenAllOk 1000 1000)).2.1
        (oCloseAllOk 1000 1000)).world.runDir = none ∧
    (pam_sm_close_session creds0
        (pam_sm_open_session creds0 w0 (oOpenAllOk 1000 1000)).2.1
        (oCloseAllOk 1000 1000)).world.counterFile = some ['0'] := by
  have h := C9_thm 1000 1000 (by simp [intlen, MAX_UID_LENGTH])
  exact ⟨h.1, h.2.2.2.2.1, h.2.2.2.2.2⟩

/-- C10: with a non-root effective uid, session-start returns SessionError
with the world untouched (the root check precedes all state access);
session-end with a token present likewise returns SessionError without
modifying state, while session-end without a token returns Success because
the token check precedes the root check. -/
theorem C10_thm (cr : Creds) (w : World) (o : OpenOracle) (o2 : CloseOracle)
    (h : cr.euid ≠ 0) :
    pam_sm_open_session cr w o = (.sessionErr, w, cr) ∧
    (o2.getDataOk = true → w.token = true →
      pam_sm_close_session cr w o2 = ⟨.sessionErr, w, false⟩) ∧
    (o2.getDataOk = true → w.token = false →
      pam_sm_close_session cr w o2 = ⟨.success, w, false⟩) := by
  refine ⟨?_, fun hgd htk => ?_, fun hgd htk => ?_⟩
  · rw [pam_sm_open_session, if_pos h]
  · rw [pam_sm_close_session, if_neg (by simp [hgd]),
      if_neg (by simp [htk]), if_pos h]
  · rw [pam_sm_close_session, if_neg (by simp [hgd]), if_pos (by simp [htk])]

/-- C10 witness: the statement at effective uid 1000, on a fresh world
(no token) and on a world with the token set. -/
theorem C10_witness :
    pam_sm_open_session ⟨1000, 1000⟩ w0 (oOpenAllOk 1 1)
      = (.sessionErr, w0, ⟨1000, 1000⟩) ∧
    pam_sm_close_session ⟨1000, 1000⟩ (closeWorld ['1'] none) (oCloseAllOk 1 1)
      = ⟨.sessionErr, closeWorld ['1'] none, false⟩ ∧
    pam_sm_close_session ⟨1000, 1000⟩ w0 (oCloseAllOk 1 1)
      = ⟨.success, w0, false⟩ := by
  have h1 := C10_thm ⟨1000, 1000⟩ w0 (oOpenAllOk 1 1) (oCloseAllOk 1 1)
    (by decide)
  have h2 := C10_thm ⟨1000, 1000⟩ (closeWorld ['1'] none) (oOpenAllOk 1 1)
    (oCloseAllOk 1 1) (by decide)
  exact ⟨h1.1, h2.2.1 rfl rfl, h1.2.2 rfl rfl⟩

end PamRundir
